import Mathlib

/-
Verification of the jq converter / matcher pipeline of gomega-matchers
(pkg/matchers/jq): the converter registry, the Convert trial loop, the
numeric normalizer, JSON-document decoding, and the Match / Extract query
adapters.

Modelling conventions:
* Go dynamic values (the `any` universe) are the inductive `Jq.GoVal`;
  distinct Go dynamic types get distinct constructors, because the code
  dispatches on dynamic type (type assertions and reflect.Kind).
* Machine integers are `Int` with explicit two's-complement wrapping
  (`wrapInt p n`) where Go performs an integer conversion; the platform
  word size `p` (32 or 64) is a parameter, mirroring math.MaxInt.
* float32 / float64 carry their exact numeric payload as `Rat`; the Go
  conversion float64(float32) is exact, hence payload-preserving.
* The external JSON decoder (encoding/json into `any`) is a parameter
  `dec : Bytes → Option JVal`; decoding into `any` yields only null,
  bool, float64, string, []any and map[string]any, which is what `JVal`
  embeds to.  The external query engine (gojq) is likewise a parameter
  pair `parse` / `run`.
* An io.Reader is modelled by the handle `GoVal.vreader` whose unread
  content is threaded as explicit state `World`; io.ReadAll drains it.
* Go errors are `GoError`; the field `isNotSupported` models
  `errors.Is(err, ErrTypeNotSupported)` (identity or wrapping).
* A Go panic is a distinguished outcome constructor, not an error.
-/

namespace Jq

/-- Raw bytes ([]byte contents and JSON documents), modelled as char lists. -/
abbrev Bytes := List Char

/-- The unread content of the (single) io.Reader in play; io.ReadAll drains it. -/
abbrev World := List Char

/-- A Go error value; `isNotSupported` models `errors.Is(e, ErrTypeNotSupported)`. -/
structure GoError where
  msg : String
  isNotSupported : Bool
deriving DecidableEq

/-- The sentinel `ErrTypeNotSupported` from jq_converters.go. -/
def ErrTypeNotSupported : GoError :=
  { msg := "type not supported by this converter", isNotSupported := true }

mutual
/-- A generic JSON value as produced by encoding/json when decoding into `any`:
null, bool, number (float64), string, []any, map[string]any. -/
inductive JVal where
  | jnull
  | jbool (b : Bool)
  | jnum (q : Rat)
  | jstr (s : String)
  | jarr (xs : JList)
  | jobj (es : JFields)

/-- A list of JSON values (a decoded JSON array). -/
inductive JList where
  | nil
  | cons (v : JVal) (rest : JList)

/-- String-keyed JSON object fields. -/
inductive JFields where
  | nil
  | cons (k : String) (v : JVal) (rest : JFields)
end

mutual
/-- A Go dynamic value (the `any` universe), one constructor per dynamic type
the jq package dispatches on. -/
inductive GoVal where
  | vnil
  | vbool (b : Bool)
  | vstr (s : String)
  | vint (n : Int)
  | vint64 (n : Int)
  | vint32 (n : Int)
  | vint16 (n : Int)
  | vint8 (n : Int)
  | vuint (n : Nat)
  | vuint64 (n : Nat)
  | vuint32 (n : Nat)
  | vuint16 (n : Nat)
  | vuint8 (n : Nat)
  | vfloat64 (q : Rat)
  | vfloat32 (q : Rat)
  | vbigint (n : Int)
  | vmap (es : GoFields)
  | vtypedMap (es : GoFields)
  | vlist (xs : GoList)
  | vtypedSlice (xs : GoList)
  | vbytes (bs : Bytes)
  | vraw (bs : Bytes)
  | vgbytes (bs : Bytes)
  | vreader
  | vstringer (s : String)
  | vunstructured (es : GoFields)
  | vunstructuredPtr (es : GoFields)
  | vunstructuredList (items : GoObjList)

/-- Entries of a map[string]any (or of another string-keyed map kind). -/
inductive GoFields where
  | nil
  | cons (k : String) (v : GoVal) (rest : GoFields)

/-- Elements of an []any (or of another slice kind). -/
inductive GoList where
  | nil
  | cons (v : GoVal) (rest : GoList)

/-- The Items of an *unstructured.UnstructuredList: each item carries its
backing Object map. -/
inductive GoObjList where
  | nil
  | cons (obj : GoFields) (rest : GoObjList)
end

/-- The reflect.Kind buckets the code distinguishes. -/
inductive GoKind where
  | kmap
  | kslice
  | kother
deriving DecidableEq

/-- reflect.TypeOf(v).Kind(); `none` models reflect.TypeOf(nil) being nil,
on which a Kind() call panics. -/
def reflectKind : GoVal → Option GoKind
  | .vnil => none
  | .vmap _ => some .kmap
  | .vtypedMap _ => some .kmap
  | .vlist _ => some .kslice
  | .vtypedSlice _ => some .kslice
  | .vbytes _ => some .kslice
  | .vraw _ => some .kslice
  | _ => some .kother

/-- The dynamic-type assertion `in.([]byte)` (json.RawMessage is a distinct
dynamic type, so it does not match). -/
def isByteSlice : GoVal → Bool
  | .vbytes _ => true
  | _ => false

/-- The `result == nil` test on a decoded `any`. -/
def isNil : GoVal → Bool
  | .vnil => true
  | _ => false

mutual
/-- Embedding of a decoded generic JSON value into the Go `any` universe:
numbers become float64, arrays []any, objects map[string]any, null nil. -/
def embedJ : JVal → GoVal
  | .jnull => .vnil
  | .jbool b => .vbool b
  | .jnum q => .vfloat64 q
  | .jstr s => .vstr s
  | .jarr xs => .vlist (embedJList xs)
  | .jobj es => .vmap (embedJFields es)

/-- Embedding of a decoded JSON array's elements. -/
def embedJList : JList → GoList
  | .nil => .nil
  | .cons v rest => .cons (embedJ v) (embedJList rest)

/-- Embedding of a decoded JSON object's fields. -/
def embedJFields : JFields → GoFields
  | .nil => .nil
  | .cons k v rest => .cons k (embedJ v) (embedJFields rest)
end

/-- The Go type name of a dynamic value, for diagnostics. -/
def typeName : GoVal → String
  | .vnil => "nil"
  | .vbool _ => "bool"
  | .vstr _ => "string"
  | .vint _ => "int"
  | .vint64 _ => "int64"
  | .vint32 _ => "int32"
  | .vint16 _ => "int16"
  | .vint8 _ => "int8"
  | .vuint _ => "uint"
  | .vuint64 _ => "uint64"
  | .vuint32 _ => "uint32"
  | .vuint16 _ => "uint16"
  | .vuint8 _ => "uint8"
  | .vfloat64 _ => "float64"
  | .vfloat32 _ => "float32"
  | .vbigint _ => "*big.Int"
  | .vmap _ => "map[string]interface ..."
  | .vtypedMap _ => "map[string]T"
  | .vlist _ => "[]interface ..."
  | .vtypedSlice _ => "[]T"
  | .vbytes _ => "[]uint8"
  | .vraw _ => "json.RawMessage"
  | .vgbytes _ => "*gbytes.Buffer"
  | .vreader => "io.Reader"
  | .vstringer _ => "fmt.Stringer"
  | .vunstructured _ => "unstructured.Unstructured"
  | .vunstructuredPtr _ => "*unstructured.Unstructured"
  | .vunstructuredList _ => "*unstructured.UnstructuredList"

/-- Model of gomega's format.Object: a human-readable rendering of the
offending value, its type plus a bounded representation of its contents. -/
def formatObject (v : GoVal) : String :=
  "<" ++ typeName v ++ ">: " ++
    (match v with
     | .vint n => Int.repr n
     | .vint64 n => Int.repr n
     | .vbigint n => Int.repr n
     | .vuint n => Nat.repr n
     | .vuint64 n => Nat.repr n
     | .vbool b => cond b "true" "false"
     | .vstr s => s
     | _ => "...")

/-- Go's conversion of an integer value to the machine int type on a
platform whose int is `p` bits wide: truncate to the low `p` bits and
reinterpret as two's complement. -/
def wrapInt (p : Nat) (n : Int) : Int :=
  ((n + 2 ^ (p - 1)) % 2 ^ p) - 2 ^ (p - 1)

/-- math.MaxInt on a `p`-bit platform, as an Int. -/
def maxIntP (p : Nat) : Int := 2 ^ (p - 1) - 1

/-- math.MinInt on a `p`-bit platform. -/
def minIntP (p : Nat) : Int := -(2 ^ (p - 1))

/-- math.MaxInt on a `p`-bit platform, as a Nat (for uint comparisons). -/
def maxIntNat (p : Nat) : Nat := 2 ^ (p - 1) - 1

/-- normalizeSignedInt from jq_converters.go, on a `p`-bit platform. -/
def normalizeSignedInt (p : Nat) : GoVal → GoVal
  | .vint64 n => if minIntP p ≤ n ∧ n ≤ maxIntP p then .vint (wrapInt p n) else .vbigint n
  | .vint32 n => .vint (wrapInt p n)
  | .vint16 n => .vint (wrapInt p n)
  | .vint8 n => .vint (wrapInt p n)
  | v => v

/-- normalizeUnsignedInt from jq_converters.go, on a `p`-bit platform.
big.Int.SetUint64 is value-preserving, so the big branches carry `n`. -/
def normalizeUnsignedInt (p : Nat) : GoVal → GoVal
  | .vuint64 n => if n ≤ maxIntNat p then .vint (wrapInt p n) else .vbigint n
  | .vuint32 n => .vint (wrapInt p n)
  | .vuint16 n => .vint (wrapInt p n)
  | .vuint8 n => .vint (wrapInt p n)
  | .vuint n => if n ≤ maxIntNat p then .vint (wrapInt p n) else .vbigint n
  | v => v

/-- normalizeNumeric from jq_converters.go. -/
def normalizeNumeric (p : Nat) : GoVal → GoVal
  | .vint64 n => normalizeSignedInt p (.vint64 n)
  | .vint32 n => normalizeSignedInt p (.vint32 n)
  | .vint16 n => normalizeSignedInt p (.vint16 n)
  | .vint8 n => normalizeSignedInt p (.vint8 n)
  | .vuint64 n => normalizeUnsignedInt p (.vuint64 n)
  | .vuint32 n => normalizeUnsignedInt p (.vuint32 n)
  | .vuint16 n => normalizeUnsignedInt p (.vuint16 n)
  | .vuint8 n => normalizeUnsignedInt p (.vuint8 n)
  | .vuint n => normalizeUnsignedInt p (.vuint n)
  | .vfloat32 q => .vfloat64 q
  | v => v

mutual
/-- normalizeForJQ from jq_converters.go: recurse into map[string]any and
[]any only; every other value goes through normalizeNumeric. -/
def normalizeForJQ (p : Nat) : GoVal → GoVal
  | .vmap es => .vmap (normalizeFields p es)
  | .vlist xs => .vlist (normalizeList p xs)
  | v => normalizeNumeric p v

/-- Recursion of normalizeForJQ into map[string]any entries. -/
def normalizeFields (p : Nat) : GoFields → GoFields
  | .nil => .nil
  | .cons k v rest => .cons k (normalizeForJQ p v) (normalizeFields p rest)

/-- Recursion of normalizeForJQ into []any elements. -/
def normalizeList (p : Nat) : GoList → GoList
  | .nil => .nil
  | .cons v rest => .cons (normalizeForJQ p v) (normalizeList p rest)
end

/-- Outcome of one converter call. -/
inductive ConvOut where
  | ok (v : GoVal)
  | fail (e : GoError)
  | panicked (msg : String)

/-- A ConverterFunc; it may consume reader state (io.ReadAll). -/
abbrev Converter := GoVal → World → ConvOut × World

/-- Result of Convert. -/
inductive CResult where
  | ok (v : GoVal)
  | err (e : GoError)
  | panicked (msg : String)

/-- The panic message of a Kind() call on the nil reflect.Type returned by
reflect.TypeOf(nil). -/
def nilPanicMsg : String :=
  "runtime error: invalid memory address or nil pointer dereference"

/-- UnmarshalJSON from jq_converters.go, parameterised by the external
encoding/json decoder `dec`. -/
def UnmarshalJSON (dec : Bytes → Option JVal) (bs : Bytes) : Except GoError GoVal :=
  if bs.isEmpty then
    .error { msg := "a valid Json document is expected", isNotSupported := false }
  else
    match dec bs with
    | none => .error { msg := "unable to unmarshal result, invalid json", isNotSupported := false }
    | some jv =>
      if isNil (embedJ jv) then
        .error { msg := "a Json Array or Object is required", isNotSupported := false }
      else
        match reflectKind (embedJ jv) with
        | some .kmap => .ok (embedJ jv)
        | some .kslice => .ok (embedJ jv)
        | _ => .error { msg := "a Json Array or Object is required", isNotSupported := false }

/-- Lift an UnmarshalJSON result into a converter outcome. -/
def ofUnmarshal : Except GoError GoVal → ConvOut
  | .ok v => .ok v
  | .error e => .fail e

/-- StringConverter from jq_converters.go. -/
def StringConverter (dec : Bytes → Option JVal) : Converter := fun a w =>
  match a with
  | .vstr s => (ofUnmarshal (UnmarshalJSON dec s.data), w)
  | _ => (.fail ErrTypeNotSupported, w)

/-- ByteSliceConverter from jq_converters.go. -/
def ByteSliceConverter (dec : Bytes → Option JVal) : Converter := fun a w =>
  match a with
  | .vbytes bs => (ofUnmarshal (UnmarshalJSON dec bs), w)
  | _ => (.fail ErrTypeNotSupported, w)

/-- RawMessageConverter from jq_converters.go. -/
def RawMessageConverter (dec : Bytes → Option JVal) : Converter := fun a w =>
  match a with
  | .vraw bs => (ofUnmarshal (UnmarshalJSON dec bs), w)
  | _ => (.fail ErrTypeNotSupported, w)

/-- GBytesBufferConverter from jq_converters.go; v.Contents() is the
buffer's accumulated bytes, carried in the value. -/
def GBytesBufferConverter (dec : Bytes → Option JVal) : Converter := fun a w =>
  match a with
  | .vgbytes bs => (ofUnmarshal (UnmarshalJSON dec bs), w)
  | _ => (.fail ErrTypeNotSupported, w)

/-- ReaderConverter from jq_converters.go: io.ReadAll drains the reader
(state `w` is the unread content and becomes empty). -/
def ReaderConverter (dec : Bytes → Option JVal) : Converter := fun a w =>
  match a with
  | .vreader => (ofUnmarshal (UnmarshalJSON dec w), [])
  | _ => (.fail ErrTypeNotSupported, w)

/-- UnstructuredConverter from jq_converters.go: returns v.Object. -/
def UnstructuredConverter : Converter := fun a w =>
  match a with
  | .vunstructured es => (.ok (.vmap es), w)
  | _ => (.fail ErrTypeNotSupported, w)

/-- UnstructuredPtrConverter from jq_converters.go. -/
def UnstructuredPtrConverter : Converter := fun a w =>
  match a with
  | .vunstructuredPtr es => (.ok (.vmap es), w)
  | _ => (.fail ErrTypeNotSupported, w)

/-- The loop body of UnstructuredListPtrConverter: items[i] = item.Object. -/
def objListToGoList : GoObjList → GoList
  | .nil => .nil
  | .cons obj rest => .cons (.vmap obj) (objListToGoList rest)

/-- UnstructuredListPtrConverter from jq_converters.go. -/
def UnstructuredListPtrConverter : Converter := fun a w =>
  match a with
  | .vunstructuredList items => (.ok (.vlist (objListToGoList items)), w)
  | _ => (.fail ErrTypeNotSupported, w)

/-- MapConverter from jq_converters.go: reflect.TypeOf(in).Kind() panics for
a nil input, passes any map kind through. -/
def MapConverter : Converter := fun a w =>
  match reflectKind a with
  | none => (.panicked nilPanicMsg, w)
  | some .kmap => (.ok a, w)
  | some _ => (.fail ErrTypeNotSupported, w)

/-- SliceConverter from jq_converters.go: any slice kind except []byte. -/
def SliceConverter : Converter := fun a w =>
  match reflectKind a with
  | none => (.panicked nilPanicMsg, w)
  | some .kslice => if isByteSlice a then (.fail ErrTypeNotSupported, w) else (.ok a, w)
  | some _ => (.fail ErrTypeNotSupported, w)

/-- RegisterConverter from jq_converters.go: prepend to the list. -/
def RegisterConverter (c : Converter) (L : List Converter) : List Converter := c :: L

/-- registerBuiltinConverters from jq_converters.go.  The source calls
RegisterConverter on StringConverter first and SliceConverter last; since
each call prepends, the resulting trial order is SliceConverter first and
StringConverter last.  The nesting below is the source's call sequence
(innermost call first). -/
def registerBuiltinConverters (dec : Bytes → Option JVal) : List Converter :=
  RegisterConverter SliceConverter
    (RegisterConverter MapConverter
      (RegisterConverter UnstructuredListPtrConverter
        (RegisterConverter UnstructuredPtrConverter
          (RegisterConverter UnstructuredConverter
            (RegisterConverter (ReaderConverter dec)
              (RegisterConverter (GBytesBufferConverter dec)
                (RegisterConverter (RawMessageConverter dec)
                  (RegisterConverter (ByteSliceConverter dec)
                    (RegisterConverter (StringConverter dec) [])))))))))

/-- The converter registry as initialised by init(). -/
def builtins (dec : Bytes → Option JVal) : List Converter :=
  registerBuiltinConverters dec

/-- Convert from jq_converters.go: try converters in list order; a sentinel
error means try the next one, any other error propagates immediately; a
success is normalized; an exhausted list yields the "unsuported type"
error (typo as in the source) rendering the offending value. -/
def Convert (p : Nat) : List Converter → GoVal → World → CResult × World
  | [], a, w =>
    (.err { msg := "unsuported type:\n" ++ formatObject a, isNotSupported := false }, w)
  | c :: rest, a, w =>
    match c a w with
    | (.ok result, w2) => (.ok (normalizeForJQ p result), w2)
    | (.fail e, w2) => if e.isNotSupported then Convert p rest a w2 else (.err e, w2)
    | (.panicked m, w2) => (.panicked m, w2)

/-- A numeric representation the query engine rejects: a fixed-width
signed/unsigned integer (other than the machine int), a native uint, or a
single-precision float. -/
def isBadNum : GoVal → Bool
  | .vint64 _ => true
  | .vint32 _ => true
  | .vint16 _ => true
  | .vint8 _ => true
  | .vuint _ => true
  | .vuint64 _ => true
  | .vuint32 _ => true
  | .vuint16 _ => true
  | .vuint8 _ => true
  | .vfloat32 _ => true
  | _ => false

mutual
/-- Numeric closure along the spine normalizeForJQ actually walks: every
value reachable through map[string]any and []any nodes is free of
non-canonical numeric representations at its top level. -/
def jqNumOK : GoVal → Bool
  | .vmap es => jqNumOKFields es
  | .vlist xs => jqNumOKList xs
  | v => !isBadNum v

/-- jqNumOK over map[string]any entries. -/
def jqNumOKFields : GoFields → Bool
  | .nil => true
  | .cons _ v rest => jqNumOK v && jqNumOKFields rest

/-- jqNumOK over []any elements. -/
def jqNumOKList : GoList → Bool
  | .nil => true
  | .cons v rest => jqNumOK v && jqNumOKList rest
end

mutual
/-- Numeric closure over every leaf of the value, recursing into all
container kinds (including pass-through maps/slices of other element
types): the reading of the claim's "every numeric leaf". -/
def deepNumOK : GoVal → Bool
  | .vmap es => deepNumOKFields es
  | .vtypedMap es => deepNumOKFields es
  | .vunstructured es => deepNumOKFields es
  | .vunstructuredPtr es => deepNumOKFields es
  | .vlist xs => deepNumOKList xs
  | .vtypedSlice xs => deepNumOKList xs
  | .vunstructuredList items => deepNumOKObjs items
  | v => !isBadNum v

/-- deepNumOK over map entries. -/
def deepNumOKFields : GoFields → Bool
  | .nil => true
  | .cons _ v rest => deepNumOK v && deepNumOKFields rest

/-- deepNumOK over slice elements. -/
def deepNumOKList : GoList → Bool
  | .nil => true
  | .cons v rest => deepNumOK v && deepNumOKList rest

/-- deepNumOK over UnstructuredList items. -/
def deepNumOKObjs : GoObjList → Bool
  | .nil => true
  | .cons obj rest => deepNumOKFields obj && deepNumOKObjs rest
end

/-- One element produced by the gojq iterator: a value, or a value that is
itself an error (the `v.(error)` case). -/
inductive ResItem where
  | okv (v : GoVal)
  | errv (e : GoError)

/-- Outcome of jqMatcher.Match: the (bool, error) pair, or a propagated panic. -/
inductive MatchOut where
  | res (matched : Bool) (e : Option GoError)
  | panicked (msg : String)

/-- The jqMatcher struct (jq_matcher.go). -/
structure JqMatcher where
  Expression : String

/-- jqMatcher.Match from jq_matcher.go, parameterised by the external gojq
engine (`parse`, `run`) and json decoder `dec`: parse the expression,
Convert the actual value, run the query, and inspect only the first
produced result. -/
def JqMatcher.Match {Q : Type} (parse : String → Except String Q)
    (run : Q → GoVal → List ResItem) (p : Nat) (dec : Bytes → Option JVal)
    (matcher : JqMatcher) (actual : GoVal) (w : World) : MatchOut × World :=
  match parse matcher.Expression with
  | .error m =>
    (.res false (some { msg := "unable to parse expression " ++ matcher.Expression ++ ", " ++ m,
                        isNotSupported := false }), w)
  | .ok query =>
    match Convert p (builtins dec) actual w with
    | (.err e, w2) => (.res false (some e), w2)
    | (.panicked m, w2) => (.panicked m, w2)
    | (.ok data, w2) =>
      match run query data with
      | [] => (.res false none, w2)
      | .errv e :: _ => (.res false (some e), w2)
      | .okv v :: _ =>
        match v with
        | .vbool b => (.res b none, w2)
        | _ => (.res false none, w2)

/-- toString from jq_support.go: accepts string, []byte, fmt.Stringer and
json.RawMessage only. -/
def toString : GoVal → Option String
  | .vstr s => some s
  | .vbytes bs => some (String.mk bs)
  | .vstringer s => some s
  | .vraw bs => some (String.mk bs)
  | _ => none

/-- Result of runQuery: an iterator (its produced items), an error, or a
panic (the `in[0]` index on an empty byte slice — unreachable from Extract,
which guards against empty input). -/
inductive RunRes where
  | it (items : List ResItem)
  | err (e : GoError)
  | panicked (msg : String)

/-- runQuery from jq_support.go: a rough first-byte check for object vs
array, decoding via encoding/json into map[string]any or []any (which fails
unless the document's root is an object resp. array), then query.Run. -/
def runQuery {Q : Type} (run : Q → GoVal → List ResItem) (dec : Bytes → Option JVal)
    (query : Q) (bs : Bytes) : RunRes :=
  match bs with
  | [] => .panicked "runtime error: index out of range"
  | b :: _ =>
    if b = '{' then
      match dec bs with
      | some (.jobj es) => .it (run query (embedJ (.jobj es)))
      | _ => .err { msg := "unable to unmarshal result, invalid json", isNotSupported := false }
    else if b = '[' then
      match dec bs with
      | some (.jarr xs) => .it (run query (embedJ (.jarr xs)))
      | _ => .err { msg := "unable to unmarshal result, invalid json", isNotSupported := false }
    else
      .err { msg := "a Json Array or Object is required", isNotSupported := false }

/-- Outcome of the function Extract returns: the (value, error) pair as Go
returns it, or a propagated panic. -/
inductive ExtractOut where
  | out (v : GoVal) (e : Option GoError)
  | panicked (msg : String)

/-- Extract from jq_transform.go: parse the expression, coerce the input via
toString (string, []byte, fmt.Stringer, json.RawMessage only — the Convert
registry is not consulted), special-case empty input to (nil, nil), decode
directly via runQuery, and return the first produced value as-is. -/
def Extract {Q : Type} (parse : String → Except String Q)
    (run : Q → GoVal → List ResItem) (dec : Bytes → Option JVal)
    (expression : String) : GoVal → ExtractOut := fun a =>
  match parse expression with
  | .error m =>
    .out .vnil (some { msg := "unable to parse expression " ++ expression ++ ", " ++ m,
                       isNotSupported := false })
  | .ok query =>
    match toString a with
    | none =>
      .out (.vbool false)
        (some { msg := "extract requires a string, stringer, or []byte. got:\n" ++ formatObject a,
                isNotSupported := false })
    | some s =>
      if s.length = 0 then .out .vnil none
      else
        match runQuery run dec query s.data with
        | .err e =>
          .out (.vbool false)
            (some { msg := "unable to run query, " ++ e.msg, isNotSupported := false })
        | .panicked m => .panicked m
        | .it items =>
          match items with
          | [] => .out (.vbool false) none
          | .errv e :: _ => .out (.vbool false) (some e)
          | .okv v :: _ => .out v none

/-- Follows the spec's words (refinement reference for the Extract claim):
"same parse/convert/execute steps" as Match — parse the expression, run the
actual value through the Convert pipeline (consulting the converter
registry), execute the query — "but returns the first produced value as-is
rather than coercing to boolean". -/
def ExtractSpec {Q : Type} (parse : String → Except String Q)
    (run : Q → GoVal → List ResItem) (p : Nat) (dec : Bytes → Option JVal)
    (expression : String) : GoVal → World → ExtractOut × World := fun a w =>
  match parse expression with
  | .error m =>
    (.out .vnil (some { msg := "unable to parse expression " ++ expression ++ ", " ++ m,
                        isNotSupported := false }), w)
  | .ok query =>
    match Convert p (builtins dec) a w with
    | (.err e, w2) => (.out (.vbool false) (some e), w2)
    | (.panicked m, w2) => (.panicked m, w2)
    | (.ok data, w2) =>
      match run query data with
      | [] => (.out (.vbool false) none, w2)
      | .errv e :: _ => (.out (.vbool false) (some e), w2)
      | .okv v :: _ => (.out v none, w2)

/-- A sample decoder standing in for encoding/json on the handful of
concrete documents used in witnesses: the empty array, the bare number 42,
the object with a single field a holding 1, and the null document. -/
def decSample : Bytes → Option JVal
  | ['[', ']'] => some (.jarr .nil)
  | ['4', '2'] => some (.jnum 42)
  | ['{', '"', 'a', '"', ':', '1', '}'] => some (.jobj (.cons "a" (.jnum 1) .nil))
  | ['n', 'u', 'l', 'l'] => some .jnull
  | _ => none

/-- A sample query engine for witnesses: every expression parses (to itself). -/
def parseSample : String → Except String String := fun s => .ok s

/-- A sample run function for witnesses: the identity query, producing its
input once. -/
def runIdent : String → GoVal → List ResItem := fun _ v => [.okv v]

/-- A sample run function producing no results. -/
def runNone : String → GoVal → List ResItem := fun _ _ => []

/-- A sample run function producing the boolean true. -/
def runTrue : String → GoVal → List ResItem := fun _ _ => [.okv (.vbool true)]

/-- A sample converter that accepts everything unchanged. -/
def convAccept : Converter := fun a w => (.ok a, w)

/-- A sample converter that always returns the sentinel. -/
def convSentinel : Converter := fun _ w => (.fail ErrTypeNotSupported, w)

/-- A sample converter that fails with a non-sentinel domain error. -/
def convBoom : Converter := fun _ w =>
  (.fail { msg := "boom", isNotSupported := false }, w)

/-- A sample converter that maps every input to an empty []any. -/
def convToList : Converter := fun _ w => (.ok (.vlist .nil), w)

/-- The run of a converter list in which every converter answers with the
sentinel: `some` of the final reader state if so, `none` otherwise. -/
def allSentinel : List Converter → GoVal → World → Option World
  | [], _, w => some w
  | c :: rest, a, w =>
    match c a w with
    | (.fail e, w2) => if e.isNotSupported then allSentinel rest a w2 else none
    | _ => none

/-- If every converter in the list answers with the sentinel, Convert
reaches the end of the list and fails with the "unsuported type" error. -/
theorem convert_of_allSentinel (p : Nat) :
    ∀ (L : List Converter) (a : GoVal) (w w2 : World),
    allSentinel L a w = some w2 →
    Convert p L a w =
      (.err { msg := "unsuported type:\n" ++ formatObject a, isNotSupported := false }, w2)
  | [], a, w, w2, h => by
    simp only [allSentinel, Option.some.injEq] at h
    rw [← h]
    rfl
  | c :: rest, a, w, w2, h => by
    rcases hc : c a w with ⟨out, wmid⟩
    rw [allSentinel, hc] at h
    cases out with
    | ok r => simp at h
    | panicked m => simp at h
    | fail e =>
      by_cases he : e.isNotSupported
      · simp only [he, if_true] at h
        rw [Convert, hc]
        simp only [he, if_true]
        exact convert_of_allSentinel p rest a wmid w2 h
      · simp [he] at h

/-- Every error produced by UnmarshalJSON is a genuine error, not the
sentinel: errors.Is(err, ErrTypeNotSupported) is false for all of them. -/
theorem unmarshalJSON_flag : ∀ (dec : Bytes → Option JVal) (bs : Bytes) (e : GoError),
    UnmarshalJSON dec bs = .error e → e.isNotSupported = false := by
  intro dec bs e h
  unfold UnmarshalJSON at h
  split at h
  · simp only [Except.error.injEq] at h
    rw [← h]
  · split at h
    · simp only [Except.error.injEq] at h
      rw [← h]
    · split at h
      · simp only [Except.error.injEq] at h
        rw [← h]
      · split at h
        · exact absurd h (by simp)
        · exact absurd h (by simp)
        · simp only [Except.error.injEq] at h
          rw [← h]

/-- Convert routes a string input to StringConverter (the last converter in
trial order; all earlier built-ins answer with the sentinel on a string)
and returns the UnmarshalJSON outcome, normalized on success. -/
theorem convert_vstr (p : Nat) (dec : Bytes → Option JVal) (s : String) (w : World) :
    Convert p (builtins dec) (.vstr s) w =
      match UnmarshalJSON dec s.data with
      | .ok r => (.ok (normalizeForJQ p r), w)
      | .error e => (.err e, w) := by
  cases h : UnmarshalJSON dec s.data with
  | ok r =>
    show Convert p [StringConverter dec] (.vstr s) w = _
    have hs : StringConverter dec (.vstr s) w = (.ok r, w) := by
      simp [StringConverter, h, ofUnmarshal]
    rw [Convert, hs]
  | error e =>
    have hflag := unmarshalJSON_flag dec s.data e h
    show Convert p [StringConverter dec] (.vstr s) w = _
    have hs : StringConverter dec (.vstr s) w = (.fail e, w) := by
      simp [StringConverter, h, ofUnmarshal]
    rw [Convert, hs]
    simp [hflag]

mutual
/-- Every value produced by normalizeForJQ satisfies the spine numeric
closure: only machine int, float64 and *big.Int numerics remain along
map[string]any / []any recursion. -/
theorem jqNumOK_normalizeForJQ (p : Nat) : (v : GoVal) → jqNumOK (normalizeForJQ p v) = true
  | .vnil => rfl
  | .vbool _ => rfl
  | .vstr _ => rfl
  | .vint _ => rfl
  | .vint64 n => by
    show jqNumOK (normalizeSignedInt p (.vint64 n)) = true
    rw [normalizeSignedInt]
    split <;> rfl
  | .vint32 _ => rfl
  | .vint16 _ => rfl
  | .vint8 _ => rfl
  | .vuint n => by
    show jqNumOK (normalizeUnsignedInt p (.vuint n)) = true
    rw [normalizeUnsignedInt]
    split <;> rfl
  | .vuint64 n => by
    show jqNumOK (normalizeUnsignedInt p (.vuint64 n)) = true
    rw [normalizeUnsignedInt]
    split <;> rfl
  | .vuint32 _ => rfl
  | .vuint16 _ => rfl
  | .vuint8 _ => rfl
  | .vfloat64 _ => rfl
  | .vfloat32 _ => rfl
  | .vbigint _ => rfl
  | .vmap es => jqNumOKFields_normalizeFields p es
  | .vtypedMap _ => rfl
  | .vlist xs => jqNumOKList_normalizeList p xs
  | .vtypedSlice _ => rfl
  | .vbytes _ => rfl
  | .vraw _ => rfl
  | .vgbytes _ => rfl
  | .vreader => rfl
  | .vstringer _ => rfl
  | .vunstructured _ => rfl
  | .vunstructuredPtr _ => rfl
  | .vunstructuredList _ => rfl

/-- Spine numeric closure of normalizeFields output. -/
theorem jqNumOKFields_normalizeFields (p : Nat) :
    (es : GoFields) → jqNumOKFields (normalizeFields p es) = true
  | .nil => rfl
  | .cons k v rest => by
    show (jqNumOK (normalizeForJQ p v) && jqNumOKFields (normalizeFields p rest)) = true
    rw [jqNumOK_normalizeForJQ p v, jqNumOKFields_normalizeFields p rest]
    rfl

/-- Spine numeric closure of normalizeList output. -/
theorem jqNumOKList_normalizeList (p : Nat) :
    (xs : GoList) → jqNumOKList (normalizeList p xs) = true
  | .nil => rfl
  | .cons v rest => by
    show (jqNumOK (normalizeForJQ p v) && jqNumOKList (normalizeList p rest)) = true
    rw [jqNumOK_normalizeForJQ p v, jqNumOKList_normalizeList p rest]
    rfl
end

/-- If every converter in the list leaves the reader state alone on input
`a`, so does the whole Convert run. -/
theorem convert_world_eq (p : Nat) : ∀ (L : List Converter) (a : GoVal) (w : World),
    (∀ c, c ∈ L → ∀ ω : World, (c a ω).2 = ω) → (Convert p L a w).2 = w
  | [], _, _, _ => rfl
  | c :: rest, a, w, h => by
    have hc := h c (List.mem_cons_self c rest) w
    rcases hcv : c a w with ⟨out, wmid⟩
    rw [hcv] at hc
    replace hc : wmid = w := hc
    cases out with
    | ok r => rw [Convert, hcv]; exact hc
    | panicked m => rw [Convert, hcv]; exact hc
    | fail e =>
      by_cases he : e.isNotSupported
      · rw [Convert, hcv]
        simp only [he, if_true]
        rw [hc]
        exact convert_world_eq p rest a w (fun c' hc' => h c' (List.mem_cons_of_mem c hc'))
      · rw [Convert, hcv]
        simp [he, hc]

/-- Every built-in converter leaves the reader state alone on any input
other than the io.Reader handle (only ReaderConverter drains it, and only
when the type assertion to io.Reader succeeds). -/
theorem builtins_world (dec : Bytes → Option JVal) (a : GoVal) (h : a ≠ .vreader) :
    ∀ c, c ∈ builtins dec → ∀ ω : World, (c a ω).2 = ω := by
  intro c hc ω
  simp only [builtins, registerBuiltinConverters, RegisterConverter, List.mem_cons,
    List.not_mem_nil, or_false] at hc
  rcases hc with rfl | rfl | rfl | rfl | rfl | rfl | rfl | rfl | rfl | rfl
  · cases a <;> rfl
  · cases a <;> rfl
  · cases a <;> rfl
  · cases a <;> rfl
  · cases a <;> rfl
  · cases a <;> first | rfl | exact absurd rfl h
  · cases a <;> rfl
  · cases a <;> rfl
  · cases a <;> rfl
  · cases a <;> rfl

/-- C2: Convert trial-loop semantics — converters are tried in current list
order; a success returns its normalized result immediately; an error
matching the ErrTypeNotSupported sentinel (identity or wrapping, i.e.
errors.Is) passes control to the next converter without affecting the
result; any other error is returned immediately; if every converter
answers with the sentinel, Convert fails with the "unsuported type" error
that renders the offending value. -/
theorem convert_trial_loop :
    (∀ (p : Nat) (c : Converter) (rest : List Converter) (a : GoVal) (w : World)
       (r : GoVal) (w2 : World), c a w = (.ok r, w2) →
       Convert p (c :: rest) a w = (.ok (normalizeForJQ p r), w2)) ∧
    (∀ (p : Nat) (c : Converter) (rest : List Converter) (a : GoVal) (w : World)
       (e : GoError) (w2 : World), c a w = (.fail e, w2) → e.isNotSupported = true →
       Convert p (c :: rest) a w = Convert p rest a w2) ∧
    (∀ (p : Nat) (c : Converter) (rest : List Converter) (a : GoVal) (w : World)
       (e : GoError) (w2 : World), c a w = (.fail e, w2) → e.isNotSupported = false →
       Convert p (c :: rest) a w = (.err e, w2)) ∧
    (∀ (p : Nat) (L : List Converter) (a : GoVal) (w w2 : World),
       allSentinel L a w = some w2 →
       Convert p L a w =
         (.err { msg := "unsuported type:\n" ++ formatObject a, isNotSupported := false }, w2)) := by
  refine ⟨?_, ?_, ?_, ?_⟩
  · intro p c rest a w r w2 h
    rw [Convert, h]
  · intro p c rest a w e w2 h he
    rw [Convert, h]
    simp [he]
  · intro p c rest a w e w2 h he
    rw [Convert, h]
    simp [he]
  · intro p L a w w2 h
    exact convert_of_allSentinel p L a w w2 h

/-- Witness for C2 at concrete converters: a sentinel converter is skipped,
a non-sentinel error short-circuits, exhaustion yields the unsupported-type
error, and a succeeding converter wins immediately. -/
theorem convert_trial_loop_witness :
    Convert 64 [convSentinel, convBoom] .vnil [] = Convert 64 [convBoom] .vnil [] ∧
    Convert 64 [convBoom, convAccept] .vnil [] =
      (.err { msg := "boom", isNotSupported := false }, []) ∧
    Convert 64 [convSentinel] .vnil [] =
      (.err { msg := "unsuported type:\n" ++ formatObject .vnil, isNotSupported := false }, []) ∧
    Convert 64 [convAccept] (.vmap .nil) [] = (.ok (.vmap .nil), []) :=
  ⟨convert_trial_loop.2.1 64 convSentinel [convBoom] .vnil [] ErrTypeNotSupported [] rfl rfl,
   convert_trial_loop.2.2.1 64 convBoom [convAccept] .vnil []
     { msg := "boom", isNotSupported := false } [] rfl rfl,
   convert_trial_loop.2.2.2 64 [convSentinel] .vnil [] [] rfl,
   convert_trial_loop.1 64 convAccept [] (.vmap .nil) [] (.vmap .nil) [] rfl⟩

/-- C3: RegisterConverter prepends, so a newly registered converter is
tried before all earlier ones; whenever it succeeds on a value, Convert
yields its normalized result regardless of what the previously registered
converters would have done. -/
theorem registerConverter_override :
    (∀ (c : Converter) (L : List Converter), RegisterConverter c L = c :: L) ∧
    (∀ (p : Nat) (f : Converter) (L : List Converter) (a : GoVal) (w : World)
       (r : GoVal) (w2 : World), f a w = (.ok r, w2) →
       Convert p (RegisterConverter f L) a w = (.ok (normalizeForJQ p r), w2)) := by
  refine ⟨fun _ _ => rfl, ?_⟩
  intro p f L a w r w2 h
  rw [RegisterConverter, Convert, h]

/-- Witness for C3: a user converter registered on top of the built-ins
overrides MapConverter for a map input. -/
theorem registerConverter_override_witness :
    Convert 64 (RegisterConverter convToList (builtins decSample)) (.vmap .nil) [] =
      (.ok (.vlist .nil), []) :=
  registerConverter_override.2 64 convToList (builtins decSample) (.vmap .nil) []
    (.vlist .nil) [] rfl

/-- C9: with the built-in converters registered, Convert(nil) does not
return the unsupported-type error but panics (the pass-through converters
call Kind() on the nil reflect.Type); every type-assertion built-in
converter returns the sentinel on nil, and MapConverter (like
SliceConverter, which is tried first) panics on nil. -/
theorem convert_nil_panics : ∀ (p : Nat) (dec : Bytes → Option JVal) (w : World),
    (Convert p (builtins dec) .vnil w).1 = .panicked nilPanicMsg ∧
    StringConverter dec .vnil w = (.fail ErrTypeNotSupported, w) ∧
    ByteSliceConverter dec .vnil w = (.fail ErrTypeNotSupported, w) ∧
    RawMessageConverter dec .vnil w = (.fail ErrTypeNotSupported, w) ∧
    GBytesBufferConverter dec .vnil w = (.fail ErrTypeNotSupported, w) ∧
    ReaderConverter dec .vnil w = (.fail ErrTypeNotSupported, w) ∧
    UnstructuredConverter .vnil w = (.fail ErrTypeNotSupported, w) ∧
    UnstructuredPtrConverter .vnil w = (.fail ErrTypeNotSupported, w) ∧
    UnstructuredListPtrConverter .vnil w = (.fail ErrTypeNotSupported, w) ∧
    MapConverter .vnil w = (.panicked nilPanicMsg, w) ∧
    SliceConverter .vnil w = (.panicked nilPanicMsg, w) ∧
    ∀ e : GoError, (Convert p (builtins dec) .vnil w).1 ≠ .err e := by
  intro p dec w
  refine ⟨rfl, rfl, rfl, rfl, rfl, rfl, rfl, rfl, rfl, rfl, rfl, ?_⟩
  intro e h
  exact nomatch h

/-- Witness for C9 at the concrete built-in registry: Convert(nil) panics. -/
theorem convert_nil_panics_witness :
    (Convert 64 (builtins decSample) .vnil []).1 = .panicked nilPanicMsg :=
  (convert_nil_panics 64 decSample []).1

/-- C8 (amended): Convert is deterministic for converter lists that do not
consume reader state — in particular, with the built-in list, repeating a
Convert call on any value other than an io.Reader yields the identical
result; a stream-reading conversion consumes the reader, so this does not
extend to readers. -/
theorem convert_deterministic_pure :
    (∀ (p : Nat) (L : List Converter) (a : GoVal) (w : World),
       (∀ c, c ∈ L → ∀ ω : World, (c a ω).2 = ω) →
       (Convert p L a w).2 = w ∧
       Convert p L a ((Convert p L a w).2) = Convert p L a w) ∧
    (∀ (p : Nat) (dec : Bytes → Option JVal) (a : GoVal) (w : World), a ≠ .vreader →
       Convert p (builtins dec) a ((Convert p (builtins dec) a w).2) =
         Convert p (builtins dec) a w) := by
  constructor
  · intro p L a w h
    have hw := convert_world_eq p L a w h
    exact ⟨hw, by rw [hw]⟩
  · intro p dec a w h
    have hw := convert_world_eq p (builtins dec) a w (builtins_world dec a h)
    rw [hw]

/-- Witness for C8's amended determinism at a concrete non-reader value. -/
theorem convert_deterministic_witness :
    Convert 64 (builtins decSample) (.vint 3)
        ((Convert 64 (builtins decSample) (.vint 3) []).2) =
      Convert 64 (builtins decSample) (.vint 3) [] :=
  convert_deterministic_pure.2 64 decSample (.vint 3) [] (fun h => nomatch h)

/-- Counterexample to C8 as stated: with the built-in converters, a Convert
call on an io.Reader holding the document "[]" succeeds and drains the
reader; the immediately repeated call on the now-consumed reader fails, so
the two results differ. -/
theorem convert_reader_nondeterministic :
    (Convert 64 (builtins decSample) .vreader ['[', ']']).1 = .ok (.vlist .nil) ∧
    (Convert 64 (builtins decSample) .vreader
        ((Convert 64 (builtins decSample) .vreader ['[', ']']).2)).1 =
      .err { msg := "a valid Json document is expected", isNotSupported := false } ∧
    (CResult.ok (.vlist .nil) ≠
      CResult.err { msg := "a valid Json document is expected", isNotSupported := false }) :=
  ⟨rfl, rfl, fun h => nomatch h⟩

/-- C1 (amended): every successful Convert result satisfies numeric closure
along the spine the normalizer walks — every numeric leaf reachable through
map[string]any and []any nodes is machine int, float64 or *big.Int; leaves
inside maps/slices of other element kinds passed through unconverted are
not reached and may retain fixed-width types. -/
theorem convert_numeric_closure_spine :
    ∀ (p : Nat) (L : List Converter) (a : GoVal) (w : World) (r : GoVal) (w2 : World),
    Convert p L a w = (.ok r, w2) → jqNumOK r = true := by
  intro p L
  induction L with
  | nil =>
    intro a w r w2 h
    exact absurd h (by simp [Convert])
  | cons c rest ih =>
    intro a w r w2 h
    rw [Convert] at h
    rcases hcv : c a w with ⟨out, wmid⟩
    rw [hcv] at h
    cases out with
    | ok x =>
      simp only [Prod.mk.injEq, CResult.ok.injEq] at h
      rw [← h.1]
      exact jqNumOK_normalizeForJQ p x
    | fail e =>
      by_cases he : e.isNotSupported
      · simp only [he, if_true] at h
        exact ih a wmid r w2 h
      · simp [he] at h
    | panicked m => simp at h

/-- Counterexample to C1 as stated: a map[string]int64 input passes through
MapConverter unchanged and the normalizer does not recurse into it, so
Convert succeeds while an int64 numeric leaf survives in the result. -/
theorem convert_numeric_closure_counterexample :
    Convert 64 (builtins decSample) (.vtypedMap (.cons "a" (.vint64 5) .nil)) [] =
      (.ok (.vtypedMap (.cons "a" (.vint64 5) .nil)), []) ∧
    deepNumOK (.vtypedMap (.cons "a" (.vint64 5) .nil)) = false ∧
    isBadNum (.vint64 5) = true :=
  ⟨rfl, rfl, rfl⟩

/-- Witness for C1's amended closure at a concrete map[string]any input
holding an int64 leaf, which Convert normalizes to a machine int. -/
theorem convert_numeric_closure_witness :
    Convert 64 (builtins decSample) (.vmap (.cons "a" (.vint64 5) .nil)) [] =
      (.ok (.vmap (.cons "a" (.vint 5) .nil)), []) ∧
    jqNumOK (.vmap (.cons "a" (.vint 5) .nil)) = true :=
  ⟨rfl,
   convert_numeric_closure_spine 64 (builtins decSample)
     (.vmap (.cons "a" (.vint64 5) .nil)) [] (.vmap (.cons "a" (.vint 5) .nil)) [] rfl⟩

/-- A decoded JSON value whose root is a bare scalar or null. -/
def scalarOrNull : JVal → Bool
  | .jnull => true
  | .jbool _ => true
  | .jnum _ => true
  | .jstr _ => true
  | .jarr _ => false
  | .jobj _ => false

/-- C5: JSON-document decoding shape errors — empty input fails with the
valid-document error (and so does Convert of an empty []byte); a document
decoding to a bare scalar or null fails with the Array-or-Object-required
error (and so does Convert of the string "42"); a document decoding to an
object or array succeeds. -/
theorem unmarshal_shape_errors :
    (∀ dec : Bytes → Option JVal,
       UnmarshalJSON dec [] =
         .error { msg := "a valid Json document is expected", isNotSupported := false }) ∧
    (∀ (p : Nat) (dec : Bytes → Option JVal) (w : World),
       Convert p (builtins dec) (.vbytes []) w =
         (.err { msg := "a valid Json document is expected", isNotSupported := false }, w)) ∧
    (∀ (dec : Bytes → Option JVal) (bs : Bytes) (jv : JVal),
       bs ≠ [] → dec bs = some jv → scalarOrNull jv = true →
       UnmarshalJSON dec bs =
         .error { msg := "a Json Array or Object is required", isNotSupported := false }) ∧
    (∀ (p : Nat) (dec : Bytes → Option JVal) (w : World),
       dec ("42".data) = some (.jnum 42) →
       Convert p (builtins dec) (.vstr "42") w =
         (.err { msg := "a Json Array or Object is required", isNotSupported := false }, w)) ∧
    (∀ (dec : Bytes → Option JVal) (bs : Bytes) (jv : JVal),
       bs ≠ [] → dec bs = some jv → scalarOrNull jv = false →
       UnmarshalJSON dec bs = .ok (embedJ jv)) := by
  refine ⟨fun dec => rfl, fun p dec w => rfl, ?_, ?_, ?_⟩
  · intro dec bs jv hne hdec hsc
    have hemp : bs.isEmpty = false := by
      cases bs with
      | nil => exact absurd rfl hne
      | cons b rest => rfl
    cases jv <;> simp_all [UnmarshalJSON, scalarOrNull, embedJ, isNil, reflectKind]
  · intro p dec w hdec
    rw [convert_vstr]
    have h42 : UnmarshalJSON dec ("42".data) =
        .error { msg := "a Json Array or Object is required", isNotSupported := false } := by
      have hemp : ("42".data).isEmpty = false := rfl
      simp [UnmarshalJSON, hemp, hdec, embedJ, isNil, reflectKind]
    rw [h42]
  · intro dec bs jv hne hdec hsc
    have hemp : bs.isEmpty = false := by
      cases bs with
      | nil => exact absurd rfl hne
      | cons b rest => rfl
    cases jv <;> simp_all [UnmarshalJSON, scalarOrNull, embedJ, isNil, reflectKind]

/-- Witness for C5 at concrete documents: empty bytes, the bare number 42
(both through UnmarshalJSON and Convert), and the successful empty array. -/
theorem unmarshal_shape_errors_witness :
    UnmarshalJSON decSample [] =
      .error { msg := "a valid Json document is expected", isNotSupported := false } ∧
    Convert 64 (builtins decSample) (.vbytes []) [] =
      (.err { msg := "a valid Json document is expected", isNotSupported := false }, []) ∧
    UnmarshalJSON decSample ("42".data) =
      .error { msg := "a Json Array or Object is required", isNotSupported := false } ∧
    Convert 64 (builtins decSample) (.vstr "42") [] =
      (.err { msg := "a Json Array or Object is required", isNotSupported := false }, []) ∧
    UnmarshalJSON decSample ("[]".data) = .ok (.vlist .nil) :=
  ⟨unmarshal_shape_errors.1 decSample,
   unmarshal_shape_errors.2.1 64 decSample [],
   unmarshal_shape_errors.2.2.1 decSample ("42".data) (.jnum 42) (by decide) rfl rfl,
   unmarshal_shape_errors.2.2.2.1 64 decSample [] rfl,
   unmarshal_shape_errors.2.2.2.2 decSample ("[]".data) (.jarr .nil) (by decide) rfl rfl⟩

/-- C6: Match result coercion — once the expression parses and the actual
value converts, only the first query result is inspected: no result means
(false, nil); an error result is surfaced as the error; a boolean result is
the match outcome; any other result type yields (false, nil), never a type
error. -/
theorem match_first_result_coercion :
    ∀ (Q : Type) (parse : String → Except String Q) (run : Q → GoVal → List ResItem)
      (p : Nat) (dec : Bytes → Option JVal) (m : JqMatcher) (q : Q) (a : GoVal)
      (w w2 : World) (data : GoVal),
    parse m.Expression = .ok q →
    Convert p (builtins dec) a w = (.ok data, w2) →
    ((run q data = [] →
        JqMatcher.Match parse run p dec m a w = (.res false none, w2)) ∧
     (∀ (e : GoError) (rest : List ResItem), run q data = .errv e :: rest →
        JqMatcher.Match parse run p dec m a w = (.res false (some e), w2)) ∧
     (∀ (b : Bool) (rest : List ResItem), run q data = .okv (.vbool b) :: rest →
        JqMatcher.Match parse run p dec m a w = (.res b none, w2)) ∧
     (∀ (v : GoVal) (rest : List ResItem), run q data = .okv v :: rest →
        (∀ b : Bool, v ≠ .vbool b) →
        JqMatcher.Match parse run p dec m a w = (.res false none, w2))) := by
  intro Q parse run p dec m q a w w2 data hparse hconv
  refine ⟨?_, ?_, ?_, ?_⟩
  · intro hrun
    simp only [JqMatcher.Match, hparse, hconv, hrun]
  · intro e rest hrun
    simp only [JqMatcher.Match, hparse, hconv, hrun]
  · intro b rest hrun
    simp only [JqMatcher.Match, hparse, hconv, hrun]
  · intro v rest hrun hnb
    simp only [JqMatcher.Match, hparse, hconv, hrun]

/-- Witness for C6 at a concrete matcher whose query produces the boolean
true on a converted map input. -/
theorem match_first_result_coercion_witness :
    JqMatcher.Match parseSample runTrue 64 decSample { Expression := "." } (.vmap .nil) [] =
      (.res true none, []) :=
  (match_first_result_coercion String parseSample runTrue 64 decSample
    { Expression := "." } "." (.vmap .nil) [] [] (.vmap .nil) rfl rfl).2.2.1 true [] rfl

/-- C10: the function Extract returns pairs the boolean false with a nil
error when the query produces no result, and false is likewise the value
component accompanying the non-parse errors: the unsupported-input type
error, a query-run failure, and an error result from the engine. -/
theorem extract_false_components :
    ∀ (Q : Type) (parse : String → Except String Q) (run : Q → GoVal → List ResItem)
      (dec : Bytes → Option JVal) (expr : String) (q : Q) (a : GoVal),
    parse expr = .ok q →
    ((∀ s : String, toString a = some s → s.length ≠ 0 →
        runQuery run dec q s.data = .it [] →
        Extract parse run dec expr a = .out (.vbool false) none) ∧
     (toString a = none →
        Extract parse run dec expr a =
          .out (.vbool false)
            (some { msg := "extract requires a string, stringer, or []byte. got:\n" ++
                      formatObject a, isNotSupported := false })) ∧
     (∀ (s : String) (e : GoError), toString a = some s → s.length ≠ 0 →
        runQuery run dec q s.data = .err e →
        Extract parse run dec expr a =
          .out (.vbool false)
            (some { msg := "unable to run query, " ++ e.msg, isNotSupported := false })) ∧
     (∀ (s : String) (e : GoError) (rest : List ResItem), toString a = some s →
        s.length ≠ 0 → runQuery run dec q s.data = .it (.errv e :: rest) →
        Extract parse run dec expr a = .out (.vbool false) (some e))) := by
  intro Q parse run dec expr q a hparse
  refine ⟨?_, ?_, ?_, ?_⟩
  · intro s hts hlen hrq
    simp only [Extract, hparse, hts, hlen, if_false, hrq, if_neg hlen]
  · intro hts
    simp only [Extract, hparse, hts]
  · intro s e hts hlen hrq
    simp only [Extract, hparse, hts, hrq, if_neg hlen]
  · intro s e rest hts hlen hrq
    simp only [Extract, hparse, hts, hrq, if_neg hlen]

/-- Witness for C10: a query with no results over the empty-array document
yields the pair (false, nil). -/
theorem extract_false_components_witness :
    Extract parseSample runNone decSample "." (.vstr "[]") = .out (.vbool false) none :=
  (extract_false_components String parseSample runNone decSample "." "."
    (.vstr "[]") rfl).1 "[]" rfl (by decide) rfl

/-- Counterexample to C4 as stated: on a map[string]any input the Convert
pipeline succeeds, yet Extract rejects the very same input with its
requires-a-string error instead of running Convert — so Extract does not
perform the same parse/convert/execute steps as Match. -/
theorem extract_uses_convert_counterexample :
    (Convert 64 (builtins decSample) (.vmap (.cons "a" (.vint 1) .nil)) []).1 =
      .ok (.vmap (.cons "a" (.vint 1) .nil)) ∧
    Extract parseSample runIdent decSample "." (.vmap (.cons "a" (.vint 1) .nil)) =
      .out (.vbool false)
        (some { msg := "extract requires a string, stringer, or []byte. got:\n" ++
                  formatObject (.vmap (.cons "a" (.vint 1) .nil)), isNotSupported := false }) ∧
    (ExtractSpec parseSample runIdent 64 decSample "." (.vmap (.cons "a" (.vint 1) .nil)) []).1 =
      .out (.vmap (.cons "a" (.vint 1) .nil)) none ∧
    Extract parseSample runIdent decSample "." (.vmap (.cons "a" (.vint 1) .nil)) ≠
      (ExtractSpec parseSample runIdent 64 decSample "." (.vmap (.cons "a" (.vint 1) .nil)) []).1 := by
  have h1 : Extract parseSample runIdent decSample "." (.vmap (.cons "a" (.vint 1) .nil)) =
      .out (.vbool false)
        (some { msg := "extract requires a string, stringer, or []byte. got:\n" ++
                  formatObject (.vmap (.cons "a" (.vint 1) .nil)), isNotSupported := false }) := rfl
  have h2 : (ExtractSpec parseSample runIdent 64 decSample "."
      (.vmap (.cons "a" (.vint 1) .nil)) []).1 =
      .out (.vmap (.cons "a" (.vint 1) .nil)) none := rfl
  refine ⟨rfl, h1, h2, ?_⟩
  intro h
  rw [h1, h2] at h
  simp at h

/-- C4 (amended): Extract parses the expression and takes the first
produced value as-is (no boolean coercion), but instead of the Convert
registry it accepts only string, []byte, fmt.Stringer or json.RawMessage
inputs — any other input (such as a map, which Convert itself accepts and
passes through) is rejected with an error and the converter registry is
never consulted. -/
theorem extract_direct_decode :
    (∀ (Q : Type) (parse : String → Except String Q) (run : Q → GoVal → List ResItem)
       (dec : Bytes → Option JVal) (expr : String) (q : Q) (a : GoVal),
       parse expr = .ok q → toString a = none →
       Extract parse run dec expr a =
         .out (.vbool false)
           (some { msg := "extract requires a string, stringer, or []byte. got:\n" ++
                     formatObject a, isNotSupported := false })) ∧
    (∀ (Q : Type) (parse : String → Except String Q) (run : Q → GoVal → List ResItem)
       (dec : Bytes → Option JVal) (expr : String) (q : Q) (a : GoVal) (s : String)
       (v : GoVal) (rest : List ResItem),
       parse expr = .ok q → toString a = some s → s.length ≠ 0 →
       runQuery run dec q s.data = .it (.okv v :: rest) →
       Extract parse run dec expr a = .out v none) ∧
    (∀ es : GoFields, toString (.vmap es) = none) ∧
    (∀ (p : Nat) (dec : Bytes → Option JVal) (es : GoFields) (w : World),
       Convert p (builtins dec) (.vmap es) w = (.ok (.vmap (normalizeFields p es)), w)) := by
  refine ⟨?_, ?_, fun es => rfl, fun p dec es w => rfl⟩
  · intro Q parse run dec expr q a hparse hts
    simp only [Extract, hparse, hts]
  · intro Q parse run dec expr q a s v rest hparse hts hlen hrq
    simp only [Extract, hparse, hts, hrq, if_neg hlen]

/-- Witness for C4's amended behaviour: a string input holding the empty
array document is decoded directly and the identity query's first value is
returned as-is (an []any, not a boolean). -/
theorem extract_direct_decode_witness :
    Extract parseSample runIdent decSample "." (.vstr "[]") = .out (.vlist .nil) none :=
  extract_direct_decode.2.1 String parseSample runIdent decSample "." "."
    (.vstr "[]") "[]" (.vlist .nil) [] rfl rfl (by decide) rfl

/-- On a 32- or 64-bit platform, the machine-int conversion is the identity
on values within the platform's signed range. -/
theorem wrapInt_id (p : Nat) (hp : p = 32 ∨ p = 64) (n : Int)
    (h1 : minIntP p ≤ n) (h2 : n ≤ maxIntP p) : wrapInt p n = n := by
  obtain rfl | rfl := hp <;>
    (unfold minIntP at h1; unfold maxIntP at h2; unfold wrapInt;
     norm_num at h1 h2 ⊢; omega)

/-- The machine-int conversion is the identity on a Nat at most math.MaxInt. -/
theorem wrapInt_nat_id (p : Nat) (hp : p = 32 ∨ p = 64) (n : Nat)
    (h : n ≤ maxIntNat p) : wrapInt p n = n := by
  obtain rfl | rfl := hp <;>
    (unfold maxIntNat at h; unfold wrapInt; norm_num at h ⊢; omega)

/-- On a 32-bit platform, int(v) wraps a uint32 above math.MaxInt down by
2^32. -/
theorem wrapInt_wrap32 (n : Nat) (hc : ¬ n ≤ maxIntNat 32) (hn : n < 2 ^ 32) :
    wrapInt 32 n = (n : Int) - 2 ^ 32 := by
  unfold maxIntNat at hc
  unfold wrapInt
  norm_num at hc hn ⊢
  omega

/-- C7 (amended): numeric promotion on a `p`-bit platform (p = 32 or 64) —
int64 becomes the machine int if it fits the native range, otherwise a
*big.Int carrying the same value; uint64 and uint become the machine int if
they fit the non-negative native range, otherwise a *big.Int with the same
value; int8/int16/int32 and uint8/uint16 always widen value-preservingly;
float32 widens to float64 exactly; but uint32 is value-preserving only when
it fits the native signed range — on a 32-bit platform a uint32 of at least
2^31 wraps to a negative machine int. -/
theorem normalize_promotion_preserves :
    ∀ p : Nat, p = 32 ∨ p = 64 →
    ((∀ n : Int, -(2 ^ 63) ≤ n → n ≤ 2 ^ 63 - 1 →
        normalizeNumeric p (.vint64 n) =
          if minIntP p ≤ n ∧ n ≤ maxIntP p then .vint n else .vbigint n) ∧
     (∀ n : Nat, n < 2 ^ 64 →
        normalizeNumeric p (.vuint64 n) =
          if n ≤ maxIntNat p then .vint n else .vbigint n) ∧
     (∀ n : Nat, n < 2 ^ p →
        normalizeNumeric p (.vuint n) =
          if n ≤ maxIntNat p then .vint n else .vbigint n) ∧
     (∀ n : Int, -(2 ^ 31) ≤ n → n ≤ 2 ^ 31 - 1 → normalizeNumeric p (.vint32 n) = .vint n) ∧
     (∀ n : Int, -(2 ^ 15) ≤ n → n ≤ 2 ^ 15 - 1 → normalizeNumeric p (.vint16 n) = .vint n) ∧
     (∀ n : Int, -(2 ^ 7) ≤ n → n ≤ 2 ^ 7 - 1 → normalizeNumeric p (.vint8 n) = .vint n) ∧
     (∀ n : Nat, n < 2 ^ 16 → normalizeNumeric p (.vuint16 n) = .vint n) ∧
     (∀ n : Nat, n < 2 ^ 8 → normalizeNumeric p (.vuint8 n) = .vint n) ∧
     (∀ n : Nat, n < 2 ^ 32 →
        normalizeNumeric p (.vuint32 n) =
          if n ≤ maxIntNat p then .vint n else .vint ((n : Int) - 2 ^ p)) ∧
     (∀ q : Rat, normalizeNumeric p (.vfloat32 q) = .vfloat64 q)) := by
  intro p hp
  refine ⟨?_, ?_, ?_, ?_, ?_, ?_, ?_, ?_, ?_, fun q => rfl⟩
  · intro n h1 h2
    by_cases hc : minIntP p ≤ n ∧ n ≤ maxIntP p
    · simp [normalizeNumeric, normalizeSignedInt, hc, wrapInt_id p hp n hc.1 hc.2]
    · simp [normalizeNumeric, normalizeSignedInt, hc]
  · intro n hn
    by_cases hc : n ≤ maxIntNat p
    · simp [normalizeNumeric, normalizeUnsignedInt, hc, wrapInt_nat_id p hp n hc]
    · simp [normalizeNumeric, normalizeUnsignedInt, hc]
  · intro n hn
    by_cases hc : n ≤ maxIntNat p
    · simp [normalizeNumeric, normalizeUnsignedInt, hc, wrapInt_nat_id p hp n hc]
    · simp [normalizeNumeric, normalizeUnsignedInt, hc]
  · intro n h1 h2
    have hmin : minIntP p ≤ n := by
      obtain rfl | rfl := hp <;> (unfold minIntP; norm_num at h1 ⊢; omega)
    have hmax : n ≤ maxIntP p := by
      obtain rfl | rfl := hp <;> (unfold maxIntP; norm_num at h2 ⊢; omega)
    simp [normalizeNumeric, normalizeSignedInt, wrapInt_id p hp n hmin hmax]
  · intro n h1 h2
    have hmin : minIntP p ≤ n := by
      obtain rfl | rfl := hp <;> (unfold minIntP; norm_num at h1 ⊢; omega)
    have hmax : n ≤ maxIntP p := by
      obtain rfl | rfl := hp <;> (unfold maxIntP; norm_num at h2 ⊢; omega)
    simp [normalizeNumeric, normalizeSignedInt, wrapInt_id p hp n hmin hmax]
  · intro n h1 h2
    have hmin : minIntP p ≤ n := by
      obtain rfl | rfl := hp <;> (unfold minIntP; norm_num at h1 ⊢; omega)
    have hmax : n ≤ maxIntP p := by
      obtain rfl | rfl := hp <;> (unfold maxIntP; norm_num at h2 ⊢; omega)
    simp [normalizeNumeric, normalizeSignedInt, wrapInt_id p hp n hmin hmax]
  · intro n hn
    have hle : n ≤ maxIntNat p := by
      obtain rfl | rfl := hp <;> (unfold maxIntNat; norm_num at hn ⊢; omega)
    simp [normalizeNumeric, normalizeUnsignedInt, wrapInt_nat_id p hp n hle]
  · intro n hn
    have hle : n ≤ maxIntNat p := by
      obtain rfl | rfl := hp <;> (unfold maxIntNat; norm_num at hn ⊢; omega)
    simp [normalizeNumeric, normalizeUnsignedInt, wrapInt_nat_id p hp n hle]
  · intro n hn
    by_cases hc : n ≤ maxIntNat p
    · simp [normalizeNumeric, normalizeUnsignedInt, hc, wrapInt_nat_id p hp n hc]
    · rw [if_neg hc]
      obtain rfl | rfl := hp
      · show GoVal.vint (wrapInt 32 n) = .vint ((n : Int) - 2 ^ 32)
        rw [wrapInt_wrap32 n hc hn]
      · exfalso
        unfold maxIntNat at hc
        norm_num at hc hn
        omega

/-- Counterexample to C7 as stated: on a 32-bit platform the uint32 value
2^31 is converted by int(v) with wrapping, normalizing to the machine int
-2^31 — not a value-preserving widening. -/
theorem normalize_promotion_counterexample :
    normalizeNumeric 32 (.vuint32 (2 ^ 31)) = .vint (-(2 ^ 31)) ∧
    ((-(2 ^ 31) : Int) ≠ (((2 ^ 31 : Nat) : Int))) := by
  constructor
  · show GoVal.vint (wrapInt 32 ((2 ^ 31 : Nat) : Int)) = .vint (-(2 ^ 31))
    norm_num [wrapInt]
  · decide

/-- Witness for C7's amended promotion at concrete values on the 64-bit
platform: an in-range int64 and a float32. -/
theorem normalize_promotion_witness :
    normalizeNumeric 64 (.vint64 7) = .vint 7 ∧
    normalizeNumeric 64 (.vfloat32 1) = .vfloat64 1 := by
  have h := normalize_promotion_preserves 64 (Or.inr rfl)
  constructor
  · have h1 := h.1 7 (by norm_num) (by norm_num)
    have hc : minIntP 64 ≤ (7 : Int) ∧ (7 : Int) ≤ maxIntP 64 := by
      constructor
      · unfold minIntP
        norm_num
      · unfold maxIntP
        norm_num
    rw [h1, if_pos hc]
  · exact h.2.2.2.2.2.2.2.2.2 1

end Jq
